import Mathlib

/-!
# Shallow embedding of the danscan/zod-jsonrpc request/response pipeline

This file embeds the server dispatch engine (src/unnamed/part_007, the current
revision of src/server/index.ts), the error taxonomy
(src/jsonrpc/JSONRPCError.ts), the client call engine (the current revision of
src/client/index.ts, with validation options), the client batch engine
(src/unnamed/part_010 / src/client/batch.ts) and the JSON-RPC message schemas.

Conventions of the embedding:
* JSON values are `Json`; a JavaScript `undefined` (an absent member, an absent
  argument) is `Option.none` at the interfaces where the source can see one.
* A standard-schema validator is a total function from an optional JSON value
  to either a transformed output or a non-empty list of issues
  (src/validator, part_008: `validate` returns `{value}` or `{issues}`;
  asynchronous validators are rejected before this model applies).
* Handlers are pure: a handler returns the list of side effects it performed
  together with either a result value or a thrown value (`ThrownValue`), which
  is either a typed `JSONRPCError` or an arbitrary raw value.
* Concurrency: `Promise.all` starts every batch item and collects the results
  in input order, so the batch path is modelled as a `List.map`; effects are
  collected in input order as well.
-/

/-- A JSON value.  Numbers are modelled as integers: no claim depends on
fractional parts, and the JSON-RPC spec discourages fractional ids. -/
inductive Json where
  | null : Json
  | bool (b : Bool) : Json
  | num (n : Int) : Json
  | str (s : String) : Json
  | arr (items : List Json) : Json
  | obj (fields : List (String × Json)) : Json

/-- A JSON-RPC id value: a string, a number, or null (part_003, `id` member). -/
inductive RpcId where
  | num (n : Int) : RpcId
  | str (s : String) : RpcId
  | null : RpcId
deriving DecidableEq

/-- Member access on a JSON object (JavaScript property lookup; object keys are
unique, so the first match is the only match). -/
def lookupField (fields : List (String × Json)) (key : String) : Option Json :=
  (fields.find? (fun p => p.1 == key)).map (fun p => p.2)

/-- Outcome of running a standard-schema validator: a transformed output value
(possibly `undefined`, i.e. `none`) or a list of issues. -/
inductive SchemaResult where
  | ok (value : Option Json) : SchemaResult
  | issues (issues : List Json) : SchemaResult

/-- A synchronous standard-schema validator (the narrow validation contract the
core depends on). -/
structure Schema where
  validate : Option Json → SchemaResult

/-- The wire shape of a JSON-RPC 2.0 error, and the data carried by the
`JSONRPCError` class (src/jsonrpc/JSONRPCError.ts): code, message, optional
data. -/
structure JSONRPCError where
  code : Int
  message : String
  data : Option Json

/-- `formatErrorMessage` from src/jsonrpc/JSONRPCError.ts: the message is
`"<StandardMessage>"` or `"<StandardMessage>: <detail>"`. -/
def formatErrorMessage (errorType : String) (message : Option String) : String :=
  match message with
  | some m => errorType ++ ": " ++ m
  | none => errorType

/-- `JSONRPCError.ParseError` factory (code -32700). -/
def JSONRPCError.mkParseError (message : Option String) (data : Option Json) : JSONRPCError :=
  { code := -32700, message := formatErrorMessage "Parse error" message, data := data }

/-- `JSONRPCError.InvalidRequest` factory (code -32600). -/
def JSONRPCError.mkInvalidRequest (message : Option String) (data : Option Json) : JSONRPCError :=
  { code := -32600, message := formatErrorMessage "Invalid Request" message, data := data }

/-- `JSONRPCError.MethodNotFound` factory (code -32601). -/
def JSONRPCError.mkMethodNotFound (message : Option String) (data : Option Json) : JSONRPCError :=
  { code := -32601, message := formatErrorMessage "Method not found" message, data := data }

/-- `JSONRPCError.InvalidParams` factory (code -32602). -/
def JSONRPCError.mkInvalidParams (message : Option String) (data : Option Json) : JSONRPCError :=
  { code := -32602, message := formatErrorMessage "Invalid params" message, data := data }

/-- `JSONRPCError.InternalError` factory (code -32603). -/
def JSONRPCError.mkInternalError (message : Option String) (data : Option Json) : JSONRPCError :=
  { code := -32603, message := formatErrorMessage "Internal error" message, data := data }

/-- A value thrown by a handler or an internal step: either a typed
`JSONRPCError` (recognized by `instanceof` in `buildErrorResponse`), or any
other raw value. -/
inductive ThrownValue where
  | rpc (e : JSONRPCError) : ThrownValue
  | raw (v : Json) : ThrownValue

/-- A parsed JSON-RPC request (output of `JSONRPCRequestSchema`): the `jsonrpc`
member is the constant "2.0" after validation and is not stored.  `id = none`
means the member is absent, which makes the request a notification. -/
structure JSONRPCRequest where
  method : String
  params : Option Json
  id : Option RpcId

/-- A parsed JSON-RPC response (output of `JSONRPCResponseSchema`): the
`jsonrpc` member is the constant "2.0" after validation and is not stored.
`result = none` / `error = none` mean the member is absent. -/
structure JSONRPCResponse where
  result : Option Json
  error : Option JSONRPCError
  id : RpcId

def rpcIdToJson : RpcId → Json
  | RpcId.num n => Json.num n
  | RpcId.str s => Json.str s
  | RpcId.null => Json.null

def rpcIdToString : RpcId → String
  | RpcId.num n => toString n
  | RpcId.str s => s
  | RpcId.null => "null"

/-- Serialization of a parsed request back to a JSON value (the schema output
object the client hands to the transport function). -/
def requestToJson (r : JSONRPCRequest) : Json :=
  Json.obj ([("jsonrpc", Json.str "2.0"), ("method", Json.str r.method)]
    ++ (match r.params with | some p => [("params", p)] | none => [])
    ++ (match r.id with | some i => [("id", rpcIdToJson i)] | none => []))

/-- Modelled from the spec: the `params` member of `JSONRPCRequestSchema` in the
current JSONRPCSchemas.ts, which is not under src/ (src/unnamed/part_003 is a
previous revision of that file).  Per spec §3 and part_003: params may be
omitted, and if present must be an array (by-position) or an object (by-name). -/
def parseParamsField : Option Json → Except (List Json) (Option Json)
  | none => Except.ok none
  | some (Json.arr xs) => Except.ok (some (Json.arr xs))
  | some (Json.obj fs) => Except.ok (some (Json.obj fs))
  | some _ => Except.error [Json.str "params must be an array or an object"]

/-- Modelled from the spec: the `id` member of `JSONRPCRequestSchema` in the
current JSONRPCSchemas.ts (absent from src/).  Per spec §3 and part_003: id may
be omitted (notification) and otherwise must be a string, a number or null. -/
def parseIdField : Option Json → Except (List Json) (Option RpcId)
  | none => Except.ok none
  | some (Json.num n) => Except.ok (some (RpcId.num n))
  | some (Json.str s) => Except.ok (some (RpcId.str s))
  | some Json.null => Except.ok (some RpcId.null)
  | some _ => Except.error [Json.str "id must be a string, a number or null"]

/-- Modelled from the spec: `JSONRPCRequestSchema` of the current
JSONRPCSchemas.ts, which is not under src/ (part_003 is a previous revision).
Per spec §3, a request is an object with `method : string`, optional structured
`params`, optional `id`; the `jsonrpc` member must be the literal "2.0" when
present and is defaulted when absent (the server tests in part_006 accept
requests without a `jsonrpc` member and reject `jsonrpc: "1.0"`). -/
def parseRequestJson : Json → Except (List Json) JSONRPCRequest
  | Json.obj fields =>
    let jsonrpcOk : Bool :=
      match lookupField fields "jsonrpc" with
      | none => true
      | some (Json.str s) => s == "2.0"
      | some _ => false
    if jsonrpcOk then
      match lookupField fields "method" with
      | some (Json.str m) =>
        match parseParamsField (lookupField fields "params") with
        | Except.error iss => Except.error iss
        | Except.ok ps =>
          match parseIdField (lookupField fields "id") with
          | Except.error iss => Except.error iss
          | Except.ok idv => Except.ok { method := m, params := ps, id := idv }
      | _ => Except.error [Json.str "method must be a string"]
    else Except.error [Json.str "jsonrpc must be the literal 2.0"]
  | _ => Except.error [Json.str "request must be an object"]

/-- `JSONRPCRequestBatchSchema`: an array of requests; any element failing the
request schema fails the whole batch validation. -/
def parseBatchJson (xs : List Json) : Except (List Json) (List JSONRPCRequest) :=
  xs.mapM parseRequestJson

/-- `JSONRPCErrorSchema` (src/jsonrpc/JSONRPCError.ts): an object with a numeric
`code`, a string `message` and unconstrained optional `data`. -/
def parseErrorObjJson : Json → Except (List Json) JSONRPCError
  | Json.obj fields =>
    match lookupField fields "code", lookupField fields "message" with
    | some (Json.num c), some (Json.str m) =>
      Except.ok { code := c, message := m, data := lookupField fields "data" }
    | _, _ => Except.error [Json.str "error must have a numeric code and a string message"]
  | _ => Except.error [Json.str "error must be an object"]

/-- Modelled from the spec: `JSONRPCResponseSchema` of the current
JSONRPCSchemas.ts, which is not under src/ (part_003 is a previous revision).
Per spec §3 and part_003: an object with optional `result` (any value),
optional `error` (an ErrorObject), and a required `id` that is a string, a
number or null; the `jsonrpc` member is defaulted to "2.0" when absent.
Exactly as in part_003, nothing constrains `result` and `error` to be
mutually exclusive. -/
def parseResponseJson : Json → Except (List Json) JSONRPCResponse
  | Json.obj fields =>
    let jsonrpcOk : Bool :=
      match lookupField fields "jsonrpc" with
      | none => true
      | some (Json.str s) => s == "2.0"
      | some _ => false
    if jsonrpcOk then
      match (match lookupField fields "error" with
             | none => Except.ok (none : Option JSONRPCError)
             | some e =>
               match parseErrorObjJson e with
               | Except.ok eo => Except.ok (some eo)
               | Except.error iss => Except.error iss) with
      | Except.error iss => Except.error iss
      | Except.ok errOpt =>
        match parseIdField (lookupField fields "id") with
        | Except.ok (some i) =>
          Except.ok { result := lookupField fields "result", error := errOpt, id := i }
        | _ => Except.error [Json.str "id is required on a response"]
    else Except.error [Json.str "jsonrpc must be the literal 2.0"]
  | _ => Except.error [Json.str "response must be an object"]

/-- `JSONRPCResponseBatchSchema`: an array of responses. -/
def parseResponseBatchJson : Json → Except (List Json) (List JSONRPCResponse)
  | Json.arr xs => xs.mapM parseResponseJson
  | _ => Except.error [Json.str "batch response must be an array"]

/-!
## Method registry and server dispatch engine (src/unnamed/part_007)
-/

/-- Outcome of invoking a method handler: the side effects it performed, and
either its result value or the value it threw. -/
structure HandlerOutcome where
  effects : List Json
  result : Except ThrownValue (Option Json)

/-- A server method definition (src/method): a params schema, a result schema
and a handler. -/
structure ServerMethodDef where
  paramsSchema : Schema
  resultSchema : Schema
  handler : Option Json → HandlerOutcome

/-- A server definition: a JavaScript record from method names to method
definitions, modelled as an association list with unique keys in insertion
order. -/
abbrev ServerDef := List (String × ServerMethodDef)

/-- `methods[name]` property access on the record. -/
def lookupMethod (methods : ServerDef) (name : String) : Option ServerMethodDef :=
  (methods.find? (fun p => p.1 == name)).map (fun p => p.2)

/-- The object-spread merge `{...methods, ...defs}` used by `extend`
(part_007 line 53): keys of `methods` first in order, with values overridden by
`defs` on collision, then keys of `defs` not in `methods`, in order. -/
def spreadMerge (methods defs : ServerDef) : ServerDef :=
  (methods.map (fun p =>
    match lookupMethod defs p.1 with
    | some v => (p.1, v)
    | none => p))
  ++ defs.filter (fun p => (lookupMethod methods p.1).isNone)

/-- The `{ issues, value }` data object attached to InvalidParams and
invalid-result errors (part_007 lines 140-141 and 167); the `value` key is
dropped when the offending value is `undefined`. -/
def issuesValueData (issues : List Json) (value : Option Json) : Json :=
  Json.obj ([("issues", Json.arr issues)]
    ++ (match value with | some v => [("value", v)] | none => []))

/-- The `{ issues }` data object attached to InvalidRequest errors
(part_007 lines 39 and 92). -/
def issuesData (issues : List Json) : Json :=
  Json.obj [("issues", Json.arr issues)]

/-- `buildErrorResponse` (src/server/buildErrorResponse.ts): wraps a thrown
value in an error response; a value that is not a `JSONRPCError` instance is
coerced to `InternalError` with the value as `data`; the id falls back to null
(`id ?? null`). -/
def buildErrorResponse (error : ThrownValue) (id : Option RpcId) : JSONRPCResponse :=
  { result := none,
    error := some (match error with
      | ThrownValue.rpc e => e
      | ThrownValue.raw v => JSONRPCError.mkInternalError none (some v)),
    id := id.getD RpcId.null }

/-- `callMethod` (part_007 lines 159-172): invoke the handler with pre-parsed
params inside a failure boundary, validate the result against the result
schema, and produce a response.  When the request id is absent, the final
`parse(JSONRPCResponseSchema, {result, id})` fails (id is required on a
response) and the thrown validation error is converted to an error response by
the catch block; the caller discards that response for notifications. -/
def callMethod (m : ServerMethodDef) (params : Option Json) (id : Option RpcId) :
    JSONRPCResponse × List Json :=
  let out := m.handler params
  match out.result with
  | Except.error e => (buildErrorResponse e id, out.effects)
  | Except.ok result =>
    match m.resultSchema.validate result with
    | SchemaResult.issues iss =>
      (buildErrorResponse
        (ThrownValue.rpc (JSONRPCError.mkInternalError (some "Invalid result")
          (some (issuesValueData iss result)))) id,
       out.effects)
    | SchemaResult.ok resultData =>
      match id with
      | some i => ({ result := resultData, error := none, id := i }, out.effects)
      | none =>
        (buildErrorResponse (ThrownValue.raw (Json.str "id is required on a response")) none,
         out.effects)

/-- `parseRequestAndCallMethod` (part_007 lines 111-153): a request is a
notification iff its `id` member is absent; the response is suppressed for
notifications at every exit point, but the handler is still invoked when the
method exists and the params validate. -/
def parseRequestAndCallMethod (methods : ServerDef) (request : JSONRPCRequest) :
    Option JSONRPCResponse × List Json :=
  let shouldReturnResponse := request.id.isSome
  match lookupMethod methods request.method with
  | none =>
    (if shouldReturnResponse
      then some (buildErrorResponse (ThrownValue.rpc (JSONRPCError.mkMethodNotFound none none)) request.id)
      else none,
     [])
  | some m =>
    match m.paramsSchema.validate request.params with
    | SchemaResult.issues iss =>
      (if shouldReturnResponse
        then some (buildErrorResponse
          (ThrownValue.rpc (JSONRPCError.mkInvalidParams
            (some ("Invalid params for method " ++ request.method))
            (some (issuesValueData iss request.params))))
          request.id)
        else none,
       [])
    | SchemaResult.ok params =>
      let pr := callMethod m params request.id
      (if shouldReturnResponse then some pr.1 else none, pr.2)

/-- The value returned by `server.request`: a single response or a batch of
responses (`ResponseObject` in src/jsonrpc, part_004). -/
inductive ResponseObject where
  | single (r : JSONRPCResponse) : ResponseObject
  | batch (rs : List JSONRPCResponse) : ResponseObject

/-- `handleArrayRequest` (part_007 lines 86-105): validate the array against
the batch-of-Request schema (entire-batch failure yields one InvalidRequest
response with id null), dispatch every element, drop the undefined responses
(notifications), and return the surviving responses in request order.  The
final re-validation through `JSONRPCResponseBatchSchema` accepts every
constructed response and is the identity here. -/
def handleArrayRequest (methods : ServerDef) (request : List Json) :
    ResponseObject × List Json :=
  match parseBatchJson request with
  | Except.error iss =>
    (ResponseObject.single (buildErrorResponse
      (ThrownValue.rpc (JSONRPCError.mkInvalidRequest (some "Invalid batch request")
        (some (issuesData iss))))
      none),
     [])
  | Except.ok batchRequest =>
    let results := batchRequest.map (fun req => parseRequestAndCallMethod methods req)
    (ResponseObject.batch (results.filterMap (fun p => p.1)),
     results.foldr (fun p acc => p.2 ++ acc) [])

/-- `createServer(...).request` (part_007 lines 30-47): arrays take the batch
path; otherwise the payload is validated against the request schema (failure
yields an InvalidRequest response with id null) and dispatched;
`result ?? null` maps the undefined notification outcome to null (`none`). -/
def serverRequest (methods : ServerDef) (request : Json) :
    Option ResponseObject × List Json :=
  match request with
  | Json.arr xs =>
    let pr := handleArrayRequest methods xs
    (some pr.1, pr.2)
  | other =>
    match parseRequestJson other with
    | Except.error iss =>
      (some (ResponseObject.single (buildErrorResponse
        (ThrownValue.rpc (JSONRPCError.mkInvalidRequest none (some (issuesData iss))))
        none)),
       [])
    | Except.ok singleRequest =>
      let pr := parseRequestAndCallMethod methods singleRequest
      (pr.1.map ResponseObject.single, pr.2)

/-- The list of response objects carried by a `request()` return value
(one for a single response, the elements for a batch, none for null). -/
def producedResponses : Option ResponseObject → List JSONRPCResponse
  | none => []
  | some (ResponseObject.single r) => [r]
  | some (ResponseObject.batch rs) => rs

/-!
## Client call engine (current revision of src/client/index.ts)
-/

/-- A client method definition (a method contract): schemas only, no handler. -/
structure ClientMethodDef where
  paramsSchema : Schema
  resultSchema : Schema

/-- A client definition: a record from method names to method contracts. -/
abbrev ClientDef := List (String × ClientMethodDef)

/-- `defs[name]` property access on the client record. -/
def lookupClientMethod (defs : ClientDef) (name : String) : Option ClientMethodDef :=
  (defs.find? (fun p => p.1 == name)).map (fun p => p.2)

/-- `CallMethodOptions` (src/client/types.ts): the two independently toggleable
validation flags; both default to true in `callMethod`. -/
structure CallMethodOptions where
  validateParams : Bool
  validateResults : Bool

/-- A client value: the contracts, the transport function and the validation
options it was configured with.  The transport is modelled as a pure function
from the request payload to the raw response payload. -/
structure Client where
  defs : ClientDef
  send : Json → Json
  options : CallMethodOptions

/-- `createClient(defs, sendRequest, options)` (current src/client/index.ts). -/
def createClient (defs : ClientDef) (send : Json → Json) (options : CallMethodOptions) : Client :=
  { defs := defs, send := send, options := options }

/-- The `raw()` variant: a new client with both validations disabled
(`{...options, validateParams: false, validateResults: false}`). -/
def Client.raw (c : Client) : Client :=
  createClient c.defs c.send { validateParams := false, validateResults := false }

/-- `parse` from src/validator (part_008): run the schema and throw a plain
error carrying the issue list when validation fails. -/
def parseOrThrow (s : Schema) (v : Option Json) : Except ThrownValue (Option Json) :=
  match s.validate v with
  | SchemaResult.ok o => Except.ok o
  | SchemaResult.issues iss => Except.error (ThrownValue.raw (Json.arr iss))

/-- The request object literal built by the client's `callMethod`
(`{jsonrpc: '2.0', method, params, id: crypto.randomUUID()}`); the generated id
is a fresh string supplied by the environment. -/
def buildRequestJson (methodName : String) (params : Option Json) (freshId : String) : Json :=
  Json.obj ([("jsonrpc", Json.str "2.0"), ("method", Json.str methodName)]
    ++ (match params with | some p => [("params", p)] | none => [])
    ++ [("id", Json.str freshId)])

/-- `contractsOf` models the loop in `createServer(...).createClient`
(part_007 lines 62-69): each server method is re-wrapped as a handlerless
contract with the same schemas. -/
def contractsOf (methods : ServerDef) : ClientDef :=
  methods.map (fun p => (p.1, { paramsSchema := p.2.paramsSchema, resultSchema := p.2.resultSchema }))

/-- `createServer(...).createClient(sendRequest)` (part_007 lines 58-73):
build the contracts, create a client (options defaulted to both-on) and
immediately switch it to `raw()`. -/
def serverCreateClient (methods : ServerDef) (send : Json → Json) : Client :=
  (createClient (contractsOf methods) send { validateParams := true, validateResults := true }).raw

/-- `callMethod` of the client (current src/client/index.ts lines 80-115):
validate params (when enabled), build and validate the request, send it, parse
the response (failure is a ParseError), re-throw a typed error carried by the
response, and validate the result (when enabled) before returning it. -/
def clientCallMethod (c : Client) (d : ClientMethodDef) (methodName : String)
    (params : Option Json) (freshId : String) : Except ThrownValue (Option Json) :=
  let step1 : Except ThrownValue (Option Json) :=
    if c.options.validateParams then parseOrThrow d.paramsSchema params else Except.ok params
  match step1 with
  | Except.error e => Except.error e
  | Except.ok p =>
    match parseRequestJson (buildRequestJson methodName p freshId) with
    | Except.error iss => Except.error (ThrownValue.raw (Json.arr iss))
    | Except.ok req =>
      let responseObject := c.send (requestToJson req)
      match parseResponseJson responseObject with
      | Except.error iss =>
        Except.error (ThrownValue.rpc (JSONRPCError.mkParseError
          (some "Error parsing response") (some (issuesData iss))))
      | Except.ok response =>
        match response.error with
        | some e => Except.error (ThrownValue.rpc e)
        | none =>
          if c.options.validateResults then
            match d.resultSchema.validate response.result with
            | SchemaResult.ok v => Except.ok v
            | SchemaResult.issues iss =>
              Except.error (ThrownValue.rpc (JSONRPCError.mkInternalError
                (some ("Invalid result for method " ++ methodName)) (some (Json.arr iss))))
          else Except.ok response.result

/-!
## Client batch engine (src/unnamed/part_010 / src/client/batch.ts)
-/

/-- One entry of a batch request config: the method contract paired with the
already-built request carrying a freshly generated id. -/
structure BatchEntry where
  methodDef : ClientMethodDef
  request : JSONRPCRequest

/-- A batch request config: a record from caller-chosen local keys to entries. -/
abbrev BatchConfig := List (String × BatchEntry)

/-- `batchConfig[localKey]` property access (object keys are unique). -/
def lookupBatchConfig (config : BatchConfig) (k : String) : Option BatchEntry :=
  (config.find? (fun p => p.1 == k)).map (fun p => p.2)

/-- The `localRequestIdsByGeneratedId` map (part_010 lines 76-82) queried at a
response id: entries are `set` in config order so a later entry with the same
generated id overwrites an earlier one (hence the reversed search), and the
lookup matches by id value. -/
def getLocalKey (config : BatchConfig) (idv : RpcId) : Option String :=
  ((config.reverse).find? (fun e => e.2.request.id == some idv)).map (fun e => e.1)

/-- One slot of a batch result: a discriminated success/failure record
(`BatchResultEntry` in part_010). -/
inductive BatchResultEntry where
  | ok (value : Option Json) : BatchResultEntry
  | err (e : JSONRPCError) : BatchResultEntry

/-- The per-response slot computation (part_010 lines 90-96): an error response
is re-wrapped as a typed error; otherwise the result is validated against the
entry's result schema, converting a validation failure into an isolated
InternalError slot. -/
def mkBatchResultEntry (k : String) (d : ClientMethodDef) (r : JSONRPCResponse) : BatchResultEntry :=
  match r.error with
  | some e => BatchResultEntry.err e
  | none =>
    match d.resultSchema.validate r.result with
    | SchemaResult.ok v => BatchResultEntry.ok v
    | SchemaResult.issues iss =>
      BatchResultEntry.err (JSONRPCError.mkInternalError
        (some ("Invalid result in batch result for entry " ++ k))
        (some (Json.obj ([("error", Json.arr iss)]
          ++ (match r.result with | some v => [("result", v)] | none => [])))))

/-- JavaScript object assignment `results[k] = v`: update the first (only)
occurrence in place, or append a new key. -/
def setKey : List (String × BatchResultEntry) → String → BatchResultEntry →
    List (String × BatchResultEntry)
  | [], k, v => [(k, v)]
  | (k0, v0) :: rest, k, v =>
    if k0 == k then (k0, v) :: rest else (k0, v0) :: setKey rest k v

/-- `results[k]` lookup on the accumulated record. -/
def lookupResultList (out : List (String × BatchResultEntry)) (k : String) :
    Option BatchResultEntry :=
  (out.find? (fun p => p.1 == k)).map (fun p => p.2)

/-- The correlation loop (part_010 lines 85-97): for each incoming response in
order, find the local key via the generated-id map — throwing `InvalidRequest`
for the whole batch when there is none — and fill that key's slot.  The
`lookupBatchConfig` miss branch is unreachable because `getLocalKey` only
returns keys of the config. -/
def correlateBatchResponses (config : BatchConfig) :
    List JSONRPCResponse → List (String × BatchResultEntry) →
    Except JSONRPCError (List (String × BatchResultEntry))
  | [], results => Except.ok results
  | r :: rest, results =>
    match getLocalKey config r.id with
    | none =>
      Except.error (JSONRPCError.mkInvalidRequest
        (some ("No local request ID found for generated ID " ++ rpcIdToString r.id)) none)
    | some k =>
      match lookupBatchConfig config k with
      | some entry =>
        correlateBatchResponses config rest
          (setKey results k (mkBatchResultEntry k entry.methodDef r))
      | none =>
        Except.error (JSONRPCError.mkInternalError (some "unreachable: key not in config") none)

/-- `batch` (part_010 lines 56-100), after the caller's builder has produced
the config: send all requests as one array, parse the batch response (failure
is a ParseError for the whole call), and correlate each response back to its
local key strictly by generated id. -/
def clientBatch (config : BatchConfig) (send : Json → Json) :
    Except ThrownValue (List (String × BatchResultEntry)) :=
  let requests := config.map (fun e => e.2.request)
  let responseObject := send (Json.arr (requests.map requestToJson))
  match parseResponseBatchJson responseObject with
  | Except.error iss =>
    Except.error (ThrownValue.rpc (JSONRPCError.mkParseError
      (some "Error in batch response") (some (issuesData iss))))
  | Except.ok batchResponse =>
    match correlateBatchResponses config batchResponse [] with
    | Except.error e => Except.error (ThrownValue.rpc e)
    | Except.ok results => Except.ok results

/-!
## Concrete fixtures (the greeting/notification server of the test suites)
-/

/-- A `z.string()`-style schema: accepts exactly strings, identity transform. -/
def stringSchema : Schema :=
  { validate := fun v =>
      match v with
      | some (Json.str s) => SchemaResult.ok (some (Json.str s))
      | _ => SchemaResult.issues [Json.str "expected a string"] }

/-- A `z.tuple([z.string()])`-style schema: accepts one-element string arrays. -/
def stringTupleSchema : Schema :=
  { validate := fun v =>
      match v with
      | some (Json.arr [Json.str s]) => SchemaResult.ok (some (Json.arr [Json.str s]))
      | _ => SchemaResult.issues [Json.str "expected a tuple of one string"] }

/-- The `greeting` method of the test suites: params `[name]`, result
`"Hello, <name>!"`, no side effects. -/
def greetingMethod : ServerMethodDef :=
  { paramsSchema := stringTupleSchema,
    resultSchema := stringSchema,
    handler := fun p =>
      { effects := [],
        result := Except.ok (match p with
          | some (Json.arr [Json.str s]) => some (Json.str ("Hello, " ++ s ++ "!"))
          | _ => some (Json.str "Hello!")) } }

/-- The `notification` method of the test suites: records its parameter as a
side effect and returns true. -/
def notifyMethod : ServerMethodDef :=
  { paramsSchema := stringTupleSchema,
    resultSchema := stringSchema,
    handler := fun p =>
      { effects := [Json.obj [("notified", match p with | some j => j | none => Json.null)]],
        result := Except.ok (some (Json.str "ok")) } }

/-- The demo server registry. -/
def demoServer : ServerDef := [("greeting", greetingMethod), ("notify", notifyMethod)]

/-!
## Helper lemmas about the dispatch engine
-/

theorem buildErrorResponse_result (e : ThrownValue) (id : Option RpcId) :
    (buildErrorResponse e id).result = none := rfl

theorem buildErrorResponse_error_isSome (e : ThrownValue) (id : Option RpcId) :
    (buildErrorResponse e id).error.isSome = true := by
  cases e <;> rfl

theorem callMethod_id (m : ServerMethodDef) (p : Option Json) (i : RpcId) :
    ((callMethod m p (some i)).1).id = i := by
  unfold callMethod
  cases hr : (m.handler p).result with
  | error e => simp [hr, buildErrorResponse]
  | ok result =>
    cases hv : m.resultSchema.validate result with
    | ok v => simp [hr, hv]
    | issues iss => simp [hr, hv, buildErrorResponse]

theorem callMethod_shape (m : ServerMethodDef) (p : Option Json) (id : Option RpcId) :
    ((callMethod m p id).1).result = none ∨ ((callMethod m p id).1).error = none := by
  unfold callMethod
  cases hr : (m.handler p).result with
  | error e => left; simp [hr, buildErrorResponse]
  | ok result =>
    cases hv : m.resultSchema.validate result with
    | ok v =>
      cases id with
      | some i => right; simp [hr, hv]
      | none => left; simp [hr, hv, buildErrorResponse]
    | issues iss => left; simp [hr, hv, buildErrorResponse]

theorem prcm_fst_of_id_none (methods : ServerDef) (req : JSONRPCRequest)
    (h : req.id = none) : (parseRequestAndCallMethod methods req).1 = none := by
  unfold parseRequestAndCallMethod
  cases hm : lookupMethod methods req.method with
  | none => simp [hm, h]
  | some m =>
    cases hv : m.paramsSchema.validate req.params with
    | ok p => simp [hm, hv, h]
    | issues iss => simp [hm, hv, h]

theorem prcm_fst_of_id_some (methods : ServerDef) (req : JSONRPCRequest) (i : RpcId)
    (h : req.id = some i) :
    ∃ resp, (parseRequestAndCallMethod methods req).1 = some resp ∧ resp.id = i := by
  unfold parseRequestAndCallMethod
  cases hm : lookupMethod methods req.method with
  | none =>
    refine ⟨buildErrorResponse (ThrownValue.rpc (JSONRPCError.mkMethodNotFound none none)) req.id, ?_, ?_⟩
    · simp [hm, h]
    · simp [buildErrorResponse, h]
  | some m =>
    cases hv : m.paramsSchema.validate req.params with
    | ok p =>
      refine ⟨(callMethod m p req.id).1, ?_, ?_⟩
      · simp [hm, hv, h]
      · rw [h]; exact callMethod_id m p i
    | issues iss =>
      refine ⟨buildErrorResponse
        (ThrownValue.rpc (JSONRPCError.mkInvalidParams
          (some ("Invalid params for method " ++ req.method))
          (some (issuesValueData iss req.params))))
        req.id, ?_, ?_⟩
      · simp [hm, hv, h]
      · simp [buildErrorResponse, h]

theorem prcm_shape (methods : ServerDef) (req : JSONRPCRequest) (resp : JSONRPCResponse)
    (h : (parseRequestAndCallMethod methods req).1 = some resp) :
    resp.result = none ∨ resp.error = none := by
  unfold parseRequestAndCallMethod at h
  cases hm : lookupMethod methods req.method with
  | none =>
    simp only [hm] at h
    by_cases hid : req.id.isSome = true
    · simp only [hid, if_pos] at h
      cases h
      left; rfl
    · simp [hid] at h
  | some m =>
    simp only [hm] at h
    cases hv : m.paramsSchema.validate req.params with
    | ok p =>
      simp only [hv] at h
      by_cases hid : req.id.isSome = true
      · simp only [hid, if_pos] at h
        cases h
        exact callMethod_shape m p req.id
      · simp [hid] at h
    | issues iss =>
      simp only [hv] at h
      by_cases hid : req.id.isSome = true
      · simp only [hid, if_pos] at h
        cases h
        left; rfl
      · simp [hid] at h

theorem callMethod_effects (m : ServerMethodDef) (p : Option Json) (id : Option RpcId) :
    (callMethod m p id).2 = (m.handler p).effects := by
  unfold callMethod
  cases hr : (m.handler p).result with
  | error e => simp [hr]
  | ok result =>
    cases hv : m.resultSchema.validate result with
    | ok v => cases id <;> simp [hr, hv]
    | issues iss => simp [hr, hv]

theorem serverRequest_single (methods : ServerDef) (payload : Json) (req : JSONRPCRequest)
    (hp : parseRequestJson payload = Except.ok req) :
    serverRequest methods payload =
      ((parseRequestAndCallMethod methods req).1.map ResponseObject.single,
       (parseRequestAndCallMethod methods req).2) := by
  cases payload with
  | arr xs => simp [parseRequestJson] at hp
  | null => simp [serverRequest, hp]
  | bool b => simp [serverRequest, hp]
  | num n => simp [serverRequest, hp]
  | str s => simp [serverRequest, hp]
  | obj fields => simp [serverRequest, hp]

theorem serverRequest_invalid (methods : ServerDef) (payload : Json) (iss : List Json)
    (hp : parseRequestJson payload = Except.error iss)
    (hne : ∀ xs, payload ≠ Json.arr xs) :
    serverRequest methods payload =
      (some (ResponseObject.single (buildErrorResponse
        (ThrownValue.rpc (JSONRPCError.mkInvalidRequest none (some (issuesData iss))))
        none)),
       []) := by
  cases payload with
  | arr xs => exact absurd rfl (hne xs)
  | null => simp [serverRequest, hp]
  | bool b => simp [serverRequest, hp]
  | num n => simp [serverRequest, hp]
  | str s => simp [serverRequest, hp]
  | obj fields => simp [serverRequest, hp]

/-!
## C1 — valid single request to a registered method
-/

/-- C1 (amended): for every structurally valid single request that carries an
`id` member and addresses a registered method, `request()` returns a single
Response whose id equals the request's id, and that response either has no
error and a result that is a valid output of the method's result schema, or
has an error object and no result member (the two cases are mutually
exclusive on the `error` member). -/
theorem c1_amended_theorem (methods : ServerDef) (payload : Json) (req : JSONRPCRequest)
    (i : RpcId) (m : ServerMethodDef)
    (hp : parseRequestJson payload = Except.ok req)
    (hid : req.id = some i)
    (hm : lookupMethod methods req.method = some m) :
    ∃ resp, (serverRequest methods payload).1 = some (ResponseObject.single resp) ∧
      resp.id = i ∧
      ((resp.error = none ∧ ∃ raw, m.resultSchema.validate raw = SchemaResult.ok resp.result) ∨
       (∃ e, resp.error = some e ∧ resp.result = none)) := by
  rw [serverRequest_single methods payload req hp]
  unfold parseRequestAndCallMethod
  cases hv : m.paramsSchema.validate req.params with
  | issues iss =>
    refine ⟨buildErrorResponse
      (ThrownValue.rpc (JSONRPCError.mkInvalidParams
        (some ("Invalid params for method " ++ req.method))
        (some (issuesValueData iss req.params))))
      req.id, ?_, ?_, ?_⟩
    · simp [hm, hv, hid]
    · simp [buildErrorResponse, hid]
    · exact Or.inr ⟨_, rfl, rfl⟩
  | ok p =>
    unfold callMethod
    cases hr : (m.handler p).result with
    | error e =>
      refine ⟨buildErrorResponse e req.id, ?_, ?_, ?_⟩
      · simp [hm, hv, hr, hid]
      · simp [buildErrorResponse, hid]
      · exact Or.inr ⟨_, rfl, rfl⟩
    | ok result =>
      cases hres : m.resultSchema.validate result with
      | ok resultData =>
        refine ⟨{ result := resultData, error := none, id := i }, ?_, rfl, ?_⟩
        · simp [hm, hv, hr, hres, hid]
        · exact Or.inl ⟨rfl, result, hres⟩
      | issues iss =>
        refine ⟨buildErrorResponse
          (ThrownValue.rpc (JSONRPCError.mkInternalError (some "Invalid result")
            (some (issuesValueData iss result))))
          req.id, ?_, ?_, ?_⟩
        · simp [hm, hv, hr, hres, hid]
        · simp [buildErrorResponse, hid]
        · exact Or.inr ⟨_, rfl, rfl⟩

/-- The concrete greeting request of the test suite (id 1). -/
def c1Payload : Json :=
  Json.obj [("jsonrpc", Json.str "2.0"), ("method", Json.str "greeting"),
    ("params", Json.arr [Json.str "Dan"]), ("id", Json.num 1)]

/-- The parsed form of `c1Payload`. -/
def c1Req : JSONRPCRequest :=
  { method := "greeting", params := some (Json.arr [Json.str "Dan"]), id := some (RpcId.num 1) }

/-- A structurally valid notification (no `id` member) to the registered
`greeting` method. -/
def c1NotifPayload : Json :=
  Json.obj [("jsonrpc", Json.str "2.0"), ("method", Json.str "greeting"),
    ("params", Json.arr [Json.str "Dan"])]

/-- C1 witness: the amended theorem applied to the concrete greeting request. -/
theorem c1_witness :
    parseRequestJson c1Payload = Except.ok c1Req ∧
    c1Req.id = some (RpcId.num 1) ∧
    lookupMethod demoServer "greeting" = some greetingMethod ∧
    (∃ resp, (serverRequest demoServer c1Payload).1 = some (ResponseObject.single resp) ∧
      resp.id = RpcId.num 1 ∧
      ((resp.error = none ∧
          ∃ raw, greetingMethod.resultSchema.validate raw = SchemaResult.ok resp.result) ∨
       (∃ e, resp.error = some e ∧ resp.result = none))) :=
  ⟨rfl, rfl, rfl, c1_amended_theorem demoServer c1Payload c1Req (RpcId.num 1) greetingMethod rfl rfl rfl⟩

/-- C1 counterexample: a structurally valid single request to the registered
`greeting` method whose `id` member is absent is a notification; `request()`
resolves to null (`none`) for it, not to a Response object, refuting the claim
as stated for id-less requests. -/
theorem c1_counterexample :
    (serverRequest demoServer c1NotifPayload).1 = none ∧
    ¬ ∃ resp, (serverRequest demoServer c1NotifPayload).1 = some (ResponseObject.single resp) := by
  have e : (serverRequest demoServer c1NotifPayload).1 = none := rfl
  exact ⟨e, fun ⟨resp, h⟩ => by rw [e] at h; cases h⟩

/-!
## C2 — notifications produce no response but the handler still runs
-/

/-- C2: for every structurally valid request whose `id` member is absent,
`request()` produces no response value at every exit point, and whenever the
request reaches handler invocation (method found, params valid) the handler's
side effects are still observed. -/
theorem c2_theorem (methods : ServerDef) (payload : Json) (req : JSONRPCRequest)
    (hp : parseRequestJson payload = Except.ok req)
    (hid : req.id = none) :
    (serverRequest methods payload).1 = none ∧
    (∀ m p, lookupMethod methods req.method = some m →
      m.paramsSchema.validate req.params = SchemaResult.ok p →
      (serverRequest methods payload).2 = (m.handler p).effects) := by
  rw [serverRequest_single methods payload req hp]
  constructor
  · simp [prcm_fst_of_id_none methods req hid]
  · intro m p hm hv
    unfold parseRequestAndCallMethod
    simp [hm, hv, callMethod_effects]

/-- A notification payload for the effectful `notify` method. -/
def c2Payload : Json :=
  Json.obj [("jsonrpc", Json.str "2.0"), ("method", Json.str "notify"),
    ("params", Json.arr [Json.str "Dan"])]

/-- The parsed form of `c2Payload`. -/
def c2Req : JSONRPCRequest :=
  { method := "notify", params := some (Json.arr [Json.str "Dan"]), id := none }

/-- C2 witness: the theorem applied to a concrete notification; the observed
effects are exactly the handler's effects on the validated params. -/
theorem c2_witness :
    parseRequestJson c2Payload = Except.ok c2Req ∧
    c2Req.id = none ∧
    ((serverRequest demoServer c2Payload).1 = none ∧
     (∀ m p, lookupMethod demoServer c2Req.method = some m →
       m.paramsSchema.validate c2Req.params = SchemaResult.ok p →
       (serverRequest demoServer c2Payload).2 = (m.handler p).effects)) ∧
    (serverRequest demoServer c2Payload).2 = [Json.obj [("notified", Json.arr [Json.str "Dan"])]] :=
  ⟨rfl, rfl, c2_theorem demoServer c2Payload c2Req rfl rfl, rfl⟩

/-!
## C10 — the empty batch
-/

/-- C10: for the empty array payload, `request()` returns an empty batch
response: not an InvalidRequest error and not null. -/
theorem c10_theorem (methods : ServerDef) :
    serverRequest methods (Json.arr []) = (some (ResponseObject.batch []), []) := rfl

/-!
## C3 — batch dispatch: count and id correlation
-/

theorem batch_filterMap_ids (methods : ServerDef) :
    ∀ reqs : List JSONRPCRequest,
      (((reqs.map (fun req => parseRequestAndCallMethod methods req)).filterMap
        (fun p => p.1)).map (fun resp => resp.id))
        = reqs.filterMap (fun r => r.id) := by
  intro reqs
  induction reqs with
  | nil => rfl
  | cons r rest ih =>
    rw [List.filterMap_map] at ih
    cases h : r.id with
    | none =>
      have h1 := prcm_fst_of_id_none methods r h
      simp [h1, h, ih]
    | some i =>
      obtain ⟨resp, h1, h2⟩ := prcm_fst_of_id_some methods r i h
      simp [h1, h, h2, ih]

theorem length_filterMap_id_add (reqs : List JSONRPCRequest) :
    (reqs.filterMap (fun r => r.id)).length + reqs.countP (fun r => r.id.isNone) = reqs.length := by
  induction reqs with
  | nil => rfl
  | cons r rest ih =>
    cases h : r.id with
    | none => simp [h, List.countP_cons, ← ih]; omega
    | some i => simp [h, List.countP_cons, ← ih]; omega

/-- C3: for every structurally valid batch of N requests of which K are
notifications, `request()` returns a batch of exactly N − K responses, and
the i-th response's id equals the id of the i-th non-notification request:
correlation is by originating request, independent of completion order
(`Promise.all` collects results in request order). -/
theorem c3_theorem (methods : ServerDef) (xs : List Json) (reqs : List JSONRPCRequest)
    (h : parseBatchJson xs = Except.ok reqs) :
    ∃ rs, (serverRequest methods (Json.arr xs)).1 = some (ResponseObject.batch rs) ∧
      rs.length + reqs.countP (fun r => r.id.isNone) = reqs.length ∧
      rs.map (fun resp => resp.id) = reqs.filterMap (fun r => r.id) := by
  refine ⟨(reqs.map (fun req => parseRequestAndCallMethod methods req)).filterMap
    (fun p => p.1), ?_, ?_, ?_⟩
  · simp [serverRequest, handleArrayRequest, h]
  · have hmap := batch_filterMap_ids methods reqs
    have hlen : ((reqs.map (fun req => parseRequestAndCallMethod methods req)).filterMap
        (fun p => p.1)).length = (reqs.filterMap (fun r => r.id)).length := by
      rw [← hmap, List.length_map]
    rw [hlen]
    exact length_filterMap_id_add reqs
  · exact batch_filterMap_ids methods reqs

/-- The spec §8 batch scenario: greeting with id 1, a notification, and a call
to a missing method with id 2. -/
def c3BatchPayload : List Json :=
  [Json.obj [("jsonrpc", Json.str "2.0"), ("method", Json.str "greeting"),
     ("params", Json.arr [Json.str "Dan"]), ("id", Json.num 1)],
   Json.obj [("jsonrpc", Json.str "2.0"), ("method", Json.str "notify"),
     ("params", Json.arr [Json.str "Hi"])],
   Json.obj [("jsonrpc", Json.str "2.0"), ("method", Json.str "missing"),
     ("id", Json.num 2)]]

/-- The parsed form of `c3BatchPayload`: N = 3 requests, K = 1 notification. -/
def c3BatchReqs : List JSONRPCRequest :=
  [{ method := "greeting", params := some (Json.arr [Json.str "Dan"]), id := some (RpcId.num 1) },
   { method := "notify", params := some (Json.arr [Json.str "Hi"]), id := none },
   { method := "missing", params := none, id := some (RpcId.num 2) }]

/-- C3 witness: the theorem applied to the concrete 3-request batch (one
notification), yielding 2 responses with ids [1, 2]. -/
theorem c3_witness :
    parseBatchJson c3BatchPayload = Except.ok c3BatchReqs ∧
    (∃ rs, (serverRequest demoServer (Json.arr c3BatchPayload)).1
        = some (ResponseObject.batch rs) ∧
      rs.length + c3BatchReqs.countP (fun r => r.id.isNone) = c3BatchReqs.length ∧
      rs.map (fun resp => resp.id) = c3BatchReqs.filterMap (fun r => r.id)) ∧
    c3BatchReqs.countP (fun r => r.id.isNone) = 1 ∧
    c3BatchReqs.length = 3 :=
  ⟨rfl, c3_theorem demoServer c3BatchPayload c3BatchReqs rfl, rfl, rfl⟩

/-!
## C6 — invalid params on a non-notification request
-/

/-- C6: for every non-notification request whose params fail the method's
params schema, `request()` returns a response with the request's id whose
error has code -32602 and whose error data carries the issue list together
with the raw offending params value (`issuesValueData`). -/
theorem c6_theorem (methods : ServerDef) (payload : Json) (req : JSONRPCRequest)
    (i : RpcId) (m : ServerMethodDef) (iss : List Json)
    (hp : parseRequestJson payload = Except.ok req)
    (hid : req.id = some i)
    (hm : lookupMethod methods req.method = some m)
    (hv : m.paramsSchema.validate req.params = SchemaResult.issues iss) :
    ∃ e, (serverRequest methods payload).1 = some (ResponseObject.single
        { result := none, error := some e, id := i }) ∧
      e.code = -32602 ∧
      e.data = some (issuesValueData iss req.params) := by
  rw [serverRequest_single methods payload req hp]
  unfold parseRequestAndCallMethod
  refine ⟨JSONRPCError.mkInvalidParams
    (some ("Invalid params for method " ++ req.method))
    (some (issuesValueData iss req.params)), ?_, rfl, rfl⟩
  simp [hm, hv, hid, buildErrorResponse]

/-- A greeting request with invalid params (`[123]` instead of a string). -/
def c6Payload : Json :=
  Json.obj [("jsonrpc", Json.str "2.0"), ("method", Json.str "greeting"),
    ("params", Json.arr [Json.num 123]), ("id", Json.num 7)]

/-- The parsed form of `c6Payload`. -/
def c6Req : JSONRPCRequest :=
  { method := "greeting", params := some (Json.arr [Json.num 123]), id := some (RpcId.num 7) }

/-- C6 witness: the theorem applied to a concrete invalid-params request. -/
theorem c6_witness :
    parseRequestJson c6Payload = Except.ok c6Req ∧
    greetingMethod.paramsSchema.validate c6Req.params
      = SchemaResult.issues [Json.str "expected a tuple of one string"] ∧
    (∃ e, (serverRequest demoServer c6Payload).1 = some (ResponseObject.single
        { result := none, error := some e, id := RpcId.num 7 }) ∧
      e.code = -32602 ∧
      e.data = some (issuesValueData [Json.str "expected a tuple of one string"] c6Req.params)) :=
  ⟨rfl, rfl, c6_theorem demoServer c6Payload c6Req (RpcId.num 7) greetingMethod
    [Json.str "expected a tuple of one string"] rfl rfl rfl rfl⟩

/-!
## C7 — malformed payloads yield one top-level InvalidRequest response
-/

/-- C7: for every payload that fails request-shape validation — a malformed
single request, or a batch array failing the batch-of-Request schema —
`request()` returns one single (non-array) response with id null and error
code -32600. -/
theorem c7_theorem (methods : ServerDef) (payload : Json)
    (h : (∃ iss, (∀ xs, payload ≠ Json.arr xs) ∧ parseRequestJson payload = Except.error iss) ∨
         (∃ xs iss, payload = Json.arr xs ∧ parseBatchJson xs = Except.error iss)) :
    ∃ e, (serverRequest methods payload).1 = some (ResponseObject.single
      { result := none, error := some e, id := RpcId.null }) ∧ e.code = -32600 := by
  rcases h with ⟨iss, hne, hp⟩ | ⟨xs, iss, rfl, hp⟩
  · refine ⟨JSONRPCError.mkInvalidRequest none (some (issuesData iss)), ?_, rfl⟩
    rw [serverRequest_invalid methods payload iss hp hne]
    rfl
  · refine ⟨JSONRPCError.mkInvalidRequest (some "Invalid batch request")
      (some (issuesData iss)), ?_, rfl⟩
    simp [serverRequest, handleArrayRequest, hp, buildErrorResponse]

/-- C7 witness: the theorem applied to the malformed single payload
`{jsonrpc: "1.0"}` and (separately provable by the same theorem) to a batch
containing one malformed element. -/
theorem c7_witness :
    parseRequestJson (Json.obj [("jsonrpc", Json.str "1.0")])
      = Except.error [Json.str "jsonrpc must be the literal 2.0"] ∧
    (∃ e, (serverRequest demoServer (Json.obj [("jsonrpc", Json.str "1.0")])).1
        = some (ResponseObject.single
          { result := none, error := some e, id := RpcId.null }) ∧ e.code = -32600) ∧
    (∃ e, (serverRequest demoServer (Json.arr [Json.num 5])).1
        = some (ResponseObject.single
          { result := none, error := some e, id := RpcId.null }) ∧ e.code = -32600) :=
  ⟨rfl,
   c7_theorem demoServer (Json.obj [("jsonrpc", Json.str "1.0")])
     (Or.inl ⟨[Json.str "jsonrpc must be the literal 2.0"],
       fun _ h => Json.noConfusion h, rfl⟩),
   c7_theorem demoServer (Json.arr [Json.num 5])
     (Or.inr ⟨[Json.num 5], [Json.str "request must be an object"], rfl, rfl⟩)⟩

/-!
## C8 — extend: associativity, right bias, purity
-/

theorem find?_append_or {α : Type} (p : α → Bool) (l1 l2 : List α) :
    (l1 ++ l2).find? p =
      match l1.find? p with
      | some x => some x
      | none => l2.find? p := by
  induction l1 with
  | nil => simp
  | cons a t ih =>
    by_cases hp : p a
    · simp [List.find?_cons_of_pos, hp]
    · simp [List.find?_cons_of_neg, hp, ih]

theorem find?_map_override (defs : ServerDef) (a : ServerDef) (k : String) :
    ((a.map (fun p =>
      match lookupMethod defs p.1 with
      | some v => (p.1, v)
      | none => p)).find? (fun p => p.1 == k))
      = (a.find? (fun p => p.1 == k)).map (fun p =>
          match lookupMethod defs p.1 with
          | some v => (p.1, v)
          | none => p) := by
  induction a with
  | nil => rfl
  | cons hd tl ih =>
    obtain ⟨k0, v0⟩ := hd
    by_cases hk : (k0 == k) = true
    · cases ho : lookupMethod defs k0 with
      | some v => simp [List.find?_cons_of_pos, hk, ho]
      | none => simp [List.find?_cons_of_pos, hk, ho]
    · cases ho : lookupMethod defs k0 with
      | some v =>
        simp only [List.map_cons, ho]
        rw [List.find?_cons_of_neg _ (by simpa using hk), List.find?_cons_of_neg _ (by simpa using hk)]
        exact ih
      | none =>
        simp only [List.map_cons, ho]
        rw [List.find?_cons_of_neg _ (by simpa using hk), List.find?_cons_of_neg _ (by simpa using hk)]
        exact ih

theorem find?_filter_not_in (a : ServerDef) (b : ServerDef) (k : String)
    (hk : a.find? (fun p => p.1 == k) = none) :
    ((b.filter (fun p => (lookupMethod a p.1).isNone)).find? (fun p => p.1 == k))
      = b.find? (fun p => p.1 == k) := by
  induction b with
  | nil => rfl
  | cons hd tl ih =>
    obtain ⟨k0, v0⟩ := hd
    by_cases hh : (k0 == k) = true
    · have hkeq : k0 = k := by simpa using hh
      have hnone : lookupMethod a k0 = none := by
        rw [hkeq]
        unfold lookupMethod
        rw [hk]
        rfl
      simp [List.filter_cons, hnone, List.find?_cons_of_pos, hh]
    · by_cases hkeep : (lookupMethod a k0).isNone = true
      · simp only [List.filter_cons, hkeep, if_pos]
        rw [List.find?_cons_of_neg _ (by simpa using hh), List.find?_cons_of_neg _ (by simpa using hh)]
        exact ih
      · simp only [List.filter_cons, hkeep, if_neg, Bool.false_eq_true, not_false_iff]
        rw [List.find?_cons_of_neg _ (by simpa using hh)]
        exact ih

theorem lookupMethod_spreadMerge (a b : ServerDef) (k : String) :
    lookupMethod (spreadMerge a b) k =
      match lookupMethod b k with
      | some v => some v
      | none => lookupMethod a k := by
  show ((spreadMerge a b).find? (fun p => p.1 == k)).map (fun p => p.2) = _
  unfold spreadMerge
  rw [find?_append_or, find?_map_override]
  cases hfa : a.find? (fun p => p.1 == k) with
  | none =>
    have hla : lookupMethod a k = none := by
      unfold lookupMethod
      rw [hfa]
      rfl
    rw [find?_filter_not_in a b k hfa]
    cases hfb : b.find? (fun p => p.1 == k) with
    | none =>
      have hlb : lookupMethod b k = none := by
        unfold lookupMethod
        rw [hfb]
        rfl
      simp [hlb, hla]
    | some q =>
      have hlb : lookupMethod b k = some q.2 := by
        unfold lookupMethod
        rw [hfb]
        rfl
      simp [hlb]
  | some q =>
    have hq := List.find?_some hfa
    have hqeq : q.1 = k := by simpa using hq
    cases hb : lookupMethod b k with
    | some v => simp [hqeq, hb]
    | none =>
      have hla : lookupMethod a k = some q.2 := by
        unfold lookupMethod
        rw [hfa]
        rfl
      simp [hqeq, hb, hla]

theorem prcm_congr (m1 m2 : ServerDef)
    (hl : ∀ name, lookupMethod m1 name = lookupMethod m2 name) (req : JSONRPCRequest) :
    parseRequestAndCallMethod m1 req = parseRequestAndCallMethod m2 req := by
  unfold parseRequestAndCallMethod
  rw [hl req.method]

theorem serverRequest_congr (m1 m2 : ServerDef)
    (hl : ∀ name, lookupMethod m1 name = lookupMethod m2 name) (payload : Json) :
    serverRequest m1 payload = serverRequest m2 payload := by
  by_cases harr : ∃ xs, payload = Json.arr xs
  · obtain ⟨xs, rfl⟩ := harr
    unfold serverRequest handleArrayRequest
    cases h : parseBatchJson xs with
    | error iss => simp [h]
    | ok reqs =>
      have hmap : reqs.map (fun req => parseRequestAndCallMethod m1 req)
          = reqs.map (fun req => parseRequestAndCallMethod m2 req) :=
        List.map_congr_left (fun r _ => prcm_congr m1 m2 hl r)
      simp [h, hmap]
  · have hne : ∀ xs, payload ≠ Json.arr xs := fun xs h => harr ⟨xs, h⟩
    cases hp : parseRequestJson payload with
    | error iss =>
      rw [serverRequest_invalid m1 payload iss hp hne, serverRequest_invalid m2 payload iss hp hne]
    | ok req =>
      rw [serverRequest_single m1 payload req hp, serverRequest_single m2 payload req hp,
        prcm_congr m1 m2 hl req]

/-- C8: extending a server with A and then with B behaves identically, on every
payload, to extending it once with the merged set in which B's definitions
override A's on shared names (`extend` is associative); and the merge is
right-biased: a name registered in B resolves to B's definition in the merged
set.  The registries are pure values, so `extend` cannot mutate its source:
the original server's behavior is the unchanged `serverRequest methods`. -/
theorem c8_theorem (methods A B : ServerDef) (payload : Json) (k : String)
    (hk : (lookupMethod B k).isSome = true) :
    serverRequest (spreadMerge (spreadMerge methods A) B) payload
      = serverRequest (spreadMerge methods (spreadMerge A B)) payload ∧
    lookupMethod (spreadMerge A B) k = lookupMethod B k := by
  constructor
  · apply serverRequest_congr
    intro name
    rw [lookupMethod_spreadMerge, lookupMethod_spreadMerge, lookupMethod_spreadMerge,
      lookupMethod_spreadMerge]
    cases lookupMethod B name <;> cases lookupMethod A name <;> simp
  · rw [lookupMethod_spreadMerge]
    cases hb : lookupMethod B k with
    | some v => rfl
    | none => rw [hb] at hk; simp at hk

/-- C8 witness: the theorem applied to concrete registries with a shared name
(`x` is defined in both A and B; B wins) and a concrete payload. -/
theorem c8_witness :
    (lookupMethod [("x", notifyMethod)] "x").isSome = true ∧
    (serverRequest (spreadMerge (spreadMerge [("a", greetingMethod)]
        [("a", notifyMethod), ("x", greetingMethod)]) [("x", notifyMethod)]) c1Payload
      = serverRequest (spreadMerge [("a", greetingMethod)]
          (spreadMerge [("a", notifyMethod), ("x", greetingMethod)] [("x", notifyMethod)])) c1Payload ∧
     lookupMethod (spreadMerge [("a", notifyMethod), ("x", greetingMethod)] [("x", notifyMethod)]) "x"
       = lookupMethod [("x", notifyMethod)] "x") :=
  ⟨rfl, c8_theorem [("a", greetingMethod)] [("a", notifyMethod), ("x", greetingMethod)]
    [("x", notifyMethod)] c1Payload "x" rfl⟩

/-!
## C9 — result/error exclusivity
-/

theorem produced_shape (methods : ServerDef) (payload : Json) (resp : JSONRPCResponse)
    (h : resp ∈ producedResponses (serverRequest methods payload).1) :
    resp.result = none ∨ resp.error = none := by
  by_cases harr : ∃ xs, payload = Json.arr xs
  · obtain ⟨xs, rfl⟩ := harr
    unfold serverRequest handleArrayRequest at h
    cases hb : parseBatchJson xs with
    | error iss =>
      simp only [hb, producedResponses, List.mem_singleton] at h
      subst h
      left; rfl
    | ok reqs =>
      simp only [hb, producedResponses] at h
      rw [List.mem_filterMap] at h
      obtain ⟨pr, hpr, hfst⟩ := h
      rw [List.mem_map] at hpr
      obtain ⟨req, _, rfl⟩ := hpr
      exact prcm_shape methods req resp hfst
  · have hne : ∀ xs, payload ≠ Json.arr xs := fun xs h2 => harr ⟨xs, h2⟩
    cases hp : parseRequestJson payload with
    | error iss =>
      rw [serverRequest_invalid methods payload iss hp hne] at h
      simp only [producedResponses, List.mem_singleton] at h
      subst h
      left; rfl
    | ok req =>
      rw [serverRequest_single methods payload req hp] at h
      cases hf : (parseRequestAndCallMethod methods req).1 with
      | none => simp [hf, producedResponses] at h
      | some r =>
        simp [hf, producedResponses] at h
        subst h
        exact prcm_shape methods req _ hf

/-- C9 (amended): no response the server produces — single or inside a batch —
ever carries both a `result` and an `error` member.  (A success response for a
method whose result schema outputs `undefined` carries neither member, and the
Response schema itself does not enforce exclusivity; see the counterexample.) -/
theorem c9_amended_theorem (methods : ServerDef) (payload : Json) (resp : JSONRPCResponse)
    (h : resp ∈ producedResponses (serverRequest methods payload).1) :
    ¬ (resp.result.isSome = true ∧ resp.error.isSome = true) := by
  rintro ⟨hres, herr⟩
  rcases produced_shape methods payload resp h with hs | hs
  · rw [hs] at hres; simp at hres
  · rw [hs] at herr; simp at herr

/-- A `z.void()`-style schema: accepts exactly `undefined`, outputs `undefined`. -/
def voidSchema : Schema :=
  { validate := fun v =>
      match v with
      | none => SchemaResult.ok none
      | some _ => SchemaResult.issues [Json.str "expected void"] }

/-- A method whose params and result schemas are void. -/
def voidMethod : ServerMethodDef :=
  { paramsSchema := voidSchema,
    resultSchema := voidSchema,
    handler := fun _ => { effects := [], result := Except.ok none } }

def c9VoidServer : ServerDef := [("void", voidMethod)]

def c9VoidPayload : Json :=
  Json.obj [("jsonrpc", Json.str "2.0"), ("method", Json.str "void"), ("id", Json.num 1)]

/-- A raw response value carrying BOTH a `result` and an `error` member. -/
def c9BothJson : Json :=
  Json.obj [("jsonrpc", Json.str "2.0"), ("result", Json.num 1),
    ("error", Json.obj [("code", Json.num (-32000)), ("message", Json.str "boom")]),
    ("id", Json.num 1)]

/-- C9 counterexample: the Response schema accepts a value in which both
`result` and `error` are present (first conjunct), so it does not accept
"only if exactly one of the two members is present"; and the server produces a
response with neither member for a void-result method (second conjunct), so
server-produced responses do not always contain exactly one of the two. -/
theorem c9_counterexample :
    parseResponseJson c9BothJson = Except.ok
      { result := some (Json.num 1),
        error := some { code := -32000, message := "boom", data := none },
        id := RpcId.num 1 } ∧
    (serverRequest c9VoidServer c9VoidPayload).1
      = some (ResponseObject.single { result := none, error := none, id := RpcId.num 1 }) :=
  ⟨rfl, rfl⟩

/-- C9 witness: the amended theorem applied to the concrete greeting response. -/
theorem c9_witness :
    ({ result := some (Json.str "Hello, Dan!"), error := none, id := RpcId.num 1 } : JSONRPCResponse)
      ∈ producedResponses (serverRequest demoServer c1Payload).1 ∧
    ¬ ((({ result := some (Json.str "Hello, Dan!"), error := none, id := RpcId.num 1 } : JSONRPCResponse).result.isSome = true) ∧
       (({ result := some (Json.str "Hello, Dan!"), error := none, id := RpcId.num 1 } : JSONRPCResponse).error.isSome = true)) := by
  have hmem : ({ result := some (Json.str "Hello, Dan!"), error := none, id := RpcId.num 1 } : JSONRPCResponse)
      ∈ producedResponses (serverRequest demoServer c1Payload).1 := by
    show _ ∈ [({ result := some (Json.str "Hello, Dan!"), error := none, id := RpcId.num 1 } : JSONRPCResponse)]
    exact List.mem_singleton_self _
  exact ⟨hmem, c9_amended_theorem demoServer c1Payload _ hmem⟩

/-!
## C5 — the server-generated client skips both validations
-/

theorem parse_buildRequest (name : String) (p : Option Json) (freshId : String)
    (req : JSONRPCRequest)
    (h : parseRequestJson (buildRequestJson name p freshId) = Except.ok req) :
    req.method = name ∧ req.params = p ∧ req.id = some (RpcId.str freshId) := by
  cases p with
  | none =>
    rw [show parseRequestJson (buildRequestJson name none freshId)
      = Except.ok ⟨name, none, some (RpcId.str freshId)⟩ from rfl] at h
    cases h
    exact ⟨rfl, rfl, rfl⟩
  | some v =>
    cases v with
    | arr xs =>
      rw [show parseRequestJson (buildRequestJson name (some (Json.arr xs)) freshId)
        = Except.ok ⟨name, some (Json.arr xs), some (RpcId.str freshId)⟩ from rfl] at h
      cases h
      exact ⟨rfl, rfl, rfl⟩
    | obj fs =>
      rw [show parseRequestJson (buildRequestJson name (some (Json.obj fs)) freshId)
        = Except.ok ⟨name, some (Json.obj fs), some (RpcId.str freshId)⟩ from rfl] at h
      cases h
      exact ⟨rfl, rfl, rfl⟩
    | null => exact absurd h (by rw [show parseRequestJson (buildRequestJson name (some Json.null) freshId)
        = Except.error [Json.str "params must be an array or an object"] from rfl]; simp)
    | bool b => exact absurd h (by rw [show parseRequestJson (buildRequestJson name (some (Json.bool b)) freshId)
        = Except.error [Json.str "params must be an array or an object"] from rfl]; simp)
    | num n => exact absurd h (by rw [show parseRequestJson (buildRequestJson name (some (Json.num n)) freshId)
        = Except.error [Json.str "params must be an array or an object"] from rfl]; simp)
    | str s => exact absurd h (by rw [show parseRequestJson (buildRequestJson name (some (Json.str s)) freshId)
        = Except.error [Json.str "params must be an array or an object"] from rfl]; simp)

/-- C5: the client returned by the server's `createClient` has both validation
flags disabled; consequently a method call through it sends the caller's
params untouched (no local params validation: the request carries exactly the
raw params), and returns the response's result untouched (no local result
validation), for any response with no error member. -/
theorem c5_theorem (methods : ServerDef) (send : Json → Json) (name : String)
    (d : ClientMethodDef) (params : Option Json) (freshId : String)
    (req : JSONRPCRequest) (resp : JSONRPCResponse)
    (hreq : parseRequestJson (buildRequestJson name params freshId) = Except.ok req)
    (hresp : parseResponseJson (send (requestToJson req)) = Except.ok resp)
    (herr : resp.error = none) :
    (serverCreateClient methods send).options.validateParams = false ∧
    (serverCreateClient methods send).options.validateResults = false ∧
    req.params = params ∧
    clientCallMethod (serverCreateClient methods send) d name params freshId
      = Except.ok resp.result := by
  refine ⟨rfl, rfl, (parse_buildRequest name params freshId req hreq).2.1, ?_⟩
  unfold clientCallMethod
  simp only [serverCreateClient, Client.raw, createClient, Bool.false_eq_true, if_neg,
    not_false_iff, hreq, hresp, herr]

/-- The raw response used by the C5 witness: result `7`, which does NOT satisfy
the greeting contract's string result schema. -/
def c5ResponseJson : Json :=
  Json.obj [("jsonrpc", Json.str "2.0"), ("result", Json.num 7), ("id", Json.str "u1")]

/-- C5 witness: the server-generated client, called with params `[123]` that
violate the params schema, still sends them verbatim, and returns the result
`7` that violates the result schema — both validations are off. -/
theorem c5_witness :
    parseRequestJson (buildRequestJson "greeting" (some (Json.arr [Json.num 123])) "u1")
      = Except.ok ⟨"greeting", some (Json.arr [Json.num 123]), some (RpcId.str "u1")⟩ ∧
    ((serverCreateClient demoServer (fun _ => c5ResponseJson)).options.validateParams = false ∧
     (serverCreateClient demoServer (fun _ => c5ResponseJson)).options.validateResults = false ∧
     (⟨"greeting", some (Json.arr [Json.num 123]), some (RpcId.str "u1")⟩ : JSONRPCRequest).params
       = some (Json.arr [Json.num 123]) ∧
     clientCallMethod (serverCreateClient demoServer (fun _ => c5ResponseJson))
       ⟨stringTupleSchema, stringSchema⟩
       "greeting" (some (Json.arr [Json.num 123])) "u1"
       = Except.ok (some (Json.num 7))) :=
  ⟨rfl, c5_theorem demoServer (fun _ => c5ResponseJson) "greeting"
    ⟨stringTupleSchema, stringSchema⟩
    (some (Json.arr [Json.num 123])) "u1"
    ⟨"greeting", some (Json.arr [Json.num 123]), some (RpcId.str "u1")⟩
    ⟨some (Json.num 7), none, RpcId.str "u1"⟩
    rfl rfl rfl⟩

/-!
## C4 — batch correlation strictly by generated id
-/

theorem find?_eq_of_unique {α : Type} (pred : α → Bool) :
    ∀ (l : List α) (e : α), e ∈ l → pred e = true →
      (∀ x ∈ l, pred x = true → x = e) → l.find? pred = some e := by
  intro l
  induction l with
  | nil => intro e he _ _; cases he
  | cons a t ih =>
    intro e he hp huniq
    by_cases ha : pred a = true
    · rw [List.find?_cons_of_pos _ ha]
      rw [huniq a (List.mem_cons_self a t) ha]
    · rw [List.find?_cons_of_neg _ (by simpa using ha)]
      have he' : e ∈ t := by
        cases List.mem_cons.mp he with
        | inl h => exact absurd (h ▸ hp) ha
        | inr h => exact h
      exact ih e he' hp (fun x hx hpx => huniq x (List.mem_cons_of_mem a hx) hpx)

theorem getLocalKey_eq (config : BatchConfig) (e : String × BatchEntry) (i : RpcId)
    (hids : (config.map (fun x => x.2.request.id)).Nodup)
    (he : e ∈ config) (hid : e.2.request.id = some i) :
    getLocalKey config i = some e.1 := by
  unfold getLocalKey
  have hrev : e ∈ config.reverse := List.mem_reverse.mpr he
  have hidsrev : (config.reverse.map (fun x => x.2.request.id)).Nodup := by
    rw [List.map_reverse]
    exact List.nodup_reverse.mpr hids
  have hfind : config.reverse.find? (fun x => x.2.request.id == some i) = some e := by
    apply find?_eq_of_unique _ _ e hrev
    · simp [hid]
    · intro x hx hpx
      have hxid : x.2.request.id = some i := by simpa using hpx
      exact List.inj_on_of_nodup_map hidsrev hx hrev (by rw [hxid, hid])
  rw [hfind]
  rfl

theorem getLocalKey_mem_struct (config : BatchConfig) (i : RpcId) (k : String)
    (h : getLocalKey config i = some k) :
    ∃ e ∈ config, e.1 = k ∧ e.2.request.id = some i := by
  unfold getLocalKey at h
  cases hf : config.reverse.find? (fun x => x.2.request.id == some i) with
  | none => rw [hf] at h; cases h
  | some e =>
    rw [hf] at h
    have hk : e.1 = k := by cases h; rfl
    have hmem : e ∈ config := List.mem_reverse.mp (List.mem_of_find?_eq_some hf)
    have hpred := List.find?_some hf
    exact ⟨e, hmem, hk, by simpa using hpred⟩

theorem lookupBatchConfig_eq (config : BatchConfig) (e : String × BatchEntry)
    (hkeys : (config.map (fun x => x.1)).Nodup) (he : e ∈ config) :
    lookupBatchConfig config e.1 = some e.2 := by
  unfold lookupBatchConfig
  have hfind : config.find? (fun p => p.1 == e.1) = some e := by
    apply find?_eq_of_unique _ _ e he
    · simp
    · intro x hx hpx
      exact List.inj_on_of_nodup_map hkeys hx he (by simpa using hpx)
  rw [hfind]
  rfl

theorem getLocalKey_lookup_isSome (config : BatchConfig) (i : RpcId) (k : String)
    (h : getLocalKey config i = some k) :
    (lookupBatchConfig config k).isSome = true := by
  obtain ⟨e, hmem, hk, _⟩ := getLocalKey_mem_struct config i k h
  unfold lookupBatchConfig
  have : (config.find? (fun p => p.1 == k)).isSome = true := by
    rw [List.find?_isSome]
    exact ⟨e, hmem, by simp [hk]⟩
  cases hf : config.find? (fun p => p.1 == k) with
  | none => rw [hf] at this; cases this
  | some q => rfl

theorem beq_false_of_ne_str (a b : String) (h : ¬ a = b) : (a == b) = false := by
  simpa using h

theorem lookupResultList_setKey (m : List (String × BatchResultEntry)) (k : String)
    (v : BatchResultEntry) (k' : String) :
    lookupResultList (setKey m k v) k' =
      if k' = k then some v else lookupResultList m k' := by
  induction m with
  | nil =>
    by_cases hk : k' = k
    · subst hk; simp [setKey, lookupResultList, List.find?]
    · simp [setKey, lookupResultList, List.find?, beq_false_of_ne_str k k' (fun h => hk h.symm), hk]
  | cons hd rest ih =>
    obtain ⟨k0, v0⟩ := hd
    by_cases h0 : k0 = k
    · subst h0
      simp only [setKey, beq_self_eq_true, if_pos]
      by_cases hk : k' = k0
      · subst hk; simp [lookupResultList, List.find?]
      · simp [lookupResultList, List.find?, beq_false_of_ne_str k0 k' (fun h => hk h.symm), hk]
    · simp only [setKey, beq_false_of_ne_str k0 k h0, Bool.false_eq_true, if_neg,
        not_false_iff]
      by_cases hk : k' = k0
      · subst hk
        rw [if_neg h0]
        simp [lookupResultList, List.find?]
      · simp only [lookupResultList, List.find?, beq_false_of_ne_str k0 k' (fun h => hk h.symm)]
        have := ih
        simp only [lookupResultList] at this
        rw [this]

theorem correlate_abort (config : BatchConfig) :
    ∀ (rs : List JSONRPCResponse) (acc : List (String × BatchResultEntry)),
      (∃ r ∈ rs, getLocalKey config r.id = none) →
      ∃ e, correlateBatchResponses config rs acc = Except.error e ∧ e.code = -32600 := by
  intro rs
  induction rs with
  | nil => intro acc h; obtain ⟨r, hr, _⟩ := h; cases hr
  | cons r0 rest ih =>
    intro acc h
    obtain ⟨r, hr, hnone⟩ := h
    cases hk0 : getLocalKey config r0.id with
    | none =>
      exact ⟨JSONRPCError.mkInvalidRequest
        (some ("No local request ID found for generated ID " ++ rpcIdToString r0.id)) none,
        by simp [correlateBatchResponses, hk0], rfl⟩
    | some k =>
      have hrrest : ∃ r ∈ rest, getLocalKey config r.id = none := by
        cases List.mem_cons.mp hr with
        | inl hh => rw [hh] at hnone; rw [hnone] at hk0; cases hk0
        | inr hh => exact ⟨r, hh, hnone⟩
      have hcfg := getLocalKey_lookup_isSome config r0.id k hk0
      cases hcfge : lookupBatchConfig config k with
      | none => rw [hcfge] at hcfg; cases hcfg
      | some entry =>
        obtain ⟨e, he, hc⟩ :=
          ih (setKey acc k (mkBatchResultEntry k entry.methodDef r0)) hrrest
        exact ⟨e, by simp [correlateBatchResponses, hk0, hcfge, he], hc⟩

theorem correlate_ok (config : BatchConfig) :
    ∀ (rs : List JSONRPCResponse) (acc : List (String × BatchResultEntry)),
      (∀ r ∈ rs, (getLocalKey config r.id).isSome = true) →
      ∃ out, correlateBatchResponses config rs acc = Except.ok out := by
  intro rs
  induction rs with
  | nil => intro acc _; exact ⟨acc, rfl⟩
  | cons r0 rest ih =>
    intro acc hall
    have h0 := hall r0 (List.mem_cons_self r0 rest)
    cases hk0 : getLocalKey config r0.id with
    | none => rw [hk0] at h0; cases h0
    | some k =>
      have hcfg := getLocalKey_lookup_isSome config r0.id k hk0
      cases hcfge : lookupBatchConfig config k with
      | none => rw [hcfge] at hcfg; cases hcfg
      | some entry =>
        obtain ⟨out, hout⟩ := ih (setKey acc k (mkBatchResultEntry k entry.methodDef r0))
          (fun r hr => hall r (List.mem_cons_of_mem r0 hr))
        exact ⟨out, by simp [correlateBatchResponses, hk0, hcfge, hout]⟩

theorem correlate_skip (config : BatchConfig) (k : String) :
    ∀ (rs : List JSONRPCResponse) (acc out : List (String × BatchResultEntry)),
      (∀ r ∈ rs, getLocalKey config r.id ≠ some k) →
      correlateBatchResponses config rs acc = Except.ok out →
      lookupResultList out k = lookupResultList acc k := by
  intro rs
  induction rs with
  | nil => intro acc out _ h; cases h; rfl
  | cons r0 rest ih =>
    intro acc out hnok h
    cases hk0 : getLocalKey config r0.id with
    | none => simp [correlateBatchResponses, hk0] at h
    | some k0 =>
      simp only [correlateBatchResponses, hk0] at h
      cases hcfge : lookupBatchConfig config k0 with
      | none => simp [hcfge] at h
      | some entry =>
        simp only [hcfge] at h
        have hrec := ih (setKey acc k0 (mkBatchResultEntry k0 entry.methodDef r0)) out
          (fun r hr => hnok r (List.mem_cons_of_mem r0 hr)) h
        rw [hrec, lookupResultList_setKey]
        have hne : ¬ (k = k0) := fun hkk => hnok r0 (List.mem_cons_self r0 rest) (by rw [hk0, hkk])
        rw [if_neg hne]

theorem correlate_value (config : BatchConfig) (k : String) (v : BatchResultEntry) :
    ∀ (rs : List JSONRPCResponse) (acc out : List (String × BatchResultEntry)),
      correlateBatchResponses config rs acc = Except.ok out →
      (∀ r ∈ rs, ∀ entry, getLocalKey config r.id = some k →
        lookupBatchConfig config k = some entry →
        mkBatchResultEntry k entry.methodDef r = v) →
      (∃ r ∈ rs, getLocalKey config r.id = some k) →
      lookupResultList out k = some v := by
  intro rs
  induction rs with
  | nil => intro acc out _ _ hex; obtain ⟨r, hr, _⟩ := hex; cases hr
  | cons r0 rest ih =>
    intro acc out h hsame hex
    cases hk0 : getLocalKey config r0.id with
    | none => simp [correlateBatchResponses, hk0] at h
    | some k0 =>
      simp only [correlateBatchResponses, hk0] at h
      cases hcfge : lookupBatchConfig config k0 with
      | none => simp [hcfge] at h
      | some entry0 =>
        simp only [hcfge] at h
        by_cases hk0k : k0 = k
        · subst hk0k
          by_cases hrest : ∃ r ∈ rest, getLocalKey config r.id = some k0
          · exact ih _ out h
              (fun r hr entry hrk hcfg => hsame r (List.mem_cons_of_mem r0 hr) entry hrk hcfg)
              hrest
          · have hskip := correlate_skip config k0 rest _ out
              (fun r hr hcon => hrest ⟨r, hr, hcon⟩) h
            rw [hskip, lookupResultList_setKey, if_pos rfl]
            rw [hsame r0 (List.mem_cons_self r0 rest) entry0 hk0 hcfge]
        · have hex' : ∃ r ∈ rest, getLocalKey config r.id = some k := by
            obtain ⟨r, hr, hrk⟩ := hex
            cases List.mem_cons.mp hr with
            | inl hh =>
              rw [hh] at hrk
              rw [hrk] at hk0
              cases hk0
              exact absurd rfl hk0k
            | inr hh => exact ⟨r, hh, hrk⟩
          exact ih _ out h
            (fun r hr entry hrk hcfg => hsame r (List.mem_cons_of_mem r0 hr) entry hrk hcfg)
            hex'

/-- C4: in a client batch call, when the parsed batch response contains an id
matching no generated request id of the outgoing batch, the whole call throws
an InvalidRequest-class error (code -32600) instead of dropping the item; and
when every incoming id matches, each local key's slot is filled from the
response whose id equals the key's generated request id — correlation is
strictly by id, independent of the responses' array order. -/
theorem c4_theorem (config : BatchConfig) (send : Json → Json) (rs : List JSONRPCResponse)
    (hsend : parseResponseBatchJson
      (send (Json.arr ((config.map (fun e => e.2.request)).map requestToJson)))
      = Except.ok rs) :
    ((∃ r ∈ rs, getLocalKey config r.id = none) →
      ∃ e, clientBatch config send = Except.error (ThrownValue.rpc e) ∧ e.code = -32600) ∧
    ((∀ r ∈ rs, (getLocalKey config r.id).isSome = true) →
      (config.map (fun e => e.1)).Nodup →
      (config.map (fun e => e.2.request.id)).Nodup →
      ∀ k entry rtarget,
        lookupBatchConfig config k = some entry →
        entry.request.id = some rtarget.id →
        rtarget ∈ rs →
        (∀ r2 ∈ rs, r2.id = rtarget.id → r2 = rtarget) →
        ∃ out, clientBatch config send = Except.ok out ∧
          lookupResultList out k = some (mkBatchResultEntry k entry.methodDef rtarget)) := by
  rw [List.map_map] at hsend
  constructor
  · intro hex
    obtain ⟨e, he, hc⟩ := correlate_abort config rs [] hex
    exact ⟨e, by simp [clientBatch, hsend, he], hc⟩
  · intro hall hkeys hids k entry rtarget hk hid hmem huniq
    obtain ⟨out, hout⟩ := correlate_ok config rs [] hall
    refine ⟨out, by simp [clientBatch, hsend, hout], ?_⟩
    -- the config entry holding `entry` under key k
    have hkfind : ∃ e ∈ config, e.1 = k ∧ e.2 = entry := by
      unfold lookupBatchConfig at hk
      cases hf : config.find? (fun p => p.1 == k) with
      | none => rw [hf] at hk; cases hk
      | some q =>
        rw [hf] at hk
        have hq1 : q.1 = k := by simpa using List.find?_some hf
        have hq2 : q.2 = entry := by cases hk; rfl
        exact ⟨q, List.mem_of_find?_eq_some hf, hq1, hq2⟩
    obtain ⟨econf, hememb, hek, heval⟩ := hkfind
    have htargetk : getLocalKey config rtarget.id = some k := by
      have := getLocalKey_eq config econf rtarget.id hids hememb (by rw [heval]; exact hid)
      rw [hek] at this
      exact this
    apply correlate_value config k (mkBatchResultEntry k entry.methodDef rtarget) rs [] out hout
    · intro r hr entry2 hrk hcfg2
      rw [hk] at hcfg2
      have hentry2 : entry2 = entry := by cases hcfg2; rfl
      subst hentry2
      obtain ⟨e2, hmem2, he2k, he2id⟩ := getLocalKey_mem_struct config r.id k hrk
      have he2 : e2 = econf :=
        List.inj_on_of_nodup_map hkeys hmem2 hememb (by rw [he2k, hek])
      have hrid : some r.id = some rtarget.id := by
        rw [← he2id, he2, heval, hid]
      have hrid' : r.id = rtarget.id := Option.some.inj hrid
      rw [huniq r hr hrid']
    · exact ⟨rtarget, hmem, htargetk⟩

/-- The greeting method contract used by the C4 witness batch. -/
def c4MethodContract : ClientMethodDef :=
  { paramsSchema := stringTupleSchema, resultSchema := stringSchema }

def c4EntryA : BatchEntry :=
  { methodDef := c4MethodContract,
    request := ⟨"greeting", some (Json.arr [Json.str "Dan"]), some (RpcId.str "u1")⟩ }

def c4EntryB : BatchEntry :=
  { methodDef := c4MethodContract,
    request := ⟨"greeting", some (Json.arr [Json.str "Bea"]), some (RpcId.str "u2")⟩ }

/-- A two-entry batch config with local keys `da` and `db`. -/
def c4Config : BatchConfig := [("da", c4EntryA), ("db", c4EntryB)]

def c4RespA : JSONRPCResponse := ⟨some (Json.str "Hello, Dan!"), none, RpcId.str "u1"⟩

def c4RespB : JSONRPCResponse := ⟨some (Json.str "Hello, Bea!"), none, RpcId.str "u2"⟩

/-- The server's reply arrives in REVERSED order relative to the outgoing batch. -/
def c4Responses : List JSONRPCResponse := [c4RespB, c4RespA]

/-- A transport returning the two responses in reversed array order. -/
def c4Send : Json → Json := fun _ => Json.arr
  [Json.obj [("jsonrpc", Json.str "2.0"), ("result", Json.str "Hello, Bea!"), ("id", Json.str "u2")],
   Json.obj [("jsonrpc", Json.str "2.0"), ("result", Json.str "Hello, Dan!"), ("id", Json.str "u1")]]

/-- C4 witness: with the reply in reversed array order, the theorem still
associates local key `da` (generated id u1) with the response whose id is u1
— the second element of the reply array. -/
theorem c4_witness :
    parseResponseBatchJson (c4Send (Json.arr ((c4Config.map (fun e => e.2.request)).map requestToJson)))
      = Except.ok c4Responses ∧
    ∃ out, clientBatch c4Config c4Send = Except.ok out ∧
      lookupResultList out "da" = some (BatchResultEntry.ok (some (Json.str "Hello, Dan!"))) := by
  refine ⟨rfl, ?_⟩
  obtain ⟨-, hb⟩ := c4_theorem c4Config c4Send c4Responses rfl
  have hall : ∀ r ∈ c4Responses, (getLocalKey c4Config r.id).isSome = true := by decide
  have hkeys : (c4Config.map (fun e => e.1)).Nodup := by decide
  have hids : (c4Config.map (fun e => e.2.request.id)).Nodup := by decide
  have huniq : ∀ r2 ∈ c4Responses, r2.id = c4RespA.id → r2 = c4RespA := by
    intro r2 h2 hid2
    rcases List.mem_cons.mp h2 with h | h
    · subst h; exact absurd hid2 (by decide)
    · rw [List.mem_singleton.mp h]
  obtain ⟨out, hout, hval⟩ := hb hall hkeys hids "da" c4EntryA c4RespA rfl rfl
    (List.mem_cons_of_mem c4RespB (List.mem_cons_self c4RespA [])) huniq
  exact ⟨out, hout, hval.trans rfl⟩
